import Mathlib

/-!
Shallow embedding of the `web3-tx-stream` terminal dashboard (Rust) and
proofs about its transaction log, viewport, filter engine, batcher,
input-mode dispatch and reconnect supervisor.

Modelling conventions:
* Rust `String` is modelled as `List Char`; `str::to_lowercase` as a
  character-wise ASCII lowercase map (the queries and fields the claims
  concern are ASCII); `String::insert`/`String::remove` take **byte**
  indices and panic off char boundaries, so they are modelled at byte
  granularity returning `Option` (`none` = panic).
* `usize`/`u64` are modelled as `Nat` (counter overflow is unreachable in
  any real run; Rust `saturating_sub` is `Nat` subtraction).
* `Instant`s are modelled as `Nat` timestamps on a monotone clock;
  `a.elapsed()` at time `now` is `now - a`.
* Floating-point statistics (`transactions_per_second`, `memory_usage_mb`)
  and wall-clock fields are outside the claims and are omitted;
  `update_performance_stats` mutates only those fields, so it is the
  identity on the modelled state.
-/

namespace Web3TxStream

/-- UTF-8 byte length of a string modelled as a char list
(Rust `String::len`). -/
def byteLen : List Char → Nat
  | [] => 0
  | c :: t => c.utf8Size + byteLen t

/-- Rust `String::insert(idx, ch)`: insert at byte index `idx`.
Returns `none` where Rust panics: `idx` past the end or not on a char
boundary. -/
def byteInsert (l : List Char) (i : Nat) (c : Char) : Option (List Char) :=
  match l, i with
  | l, 0 => some (c :: l)
  | [], _ + 1 => none
  | h :: t, i =>
    if h.utf8Size ≤ i then (byteInsert t (i - h.utf8Size) c).map (h :: ·)
    else none

/-- Rust `String::remove(idx)`: remove the char starting at byte index
`idx`. Returns `none` where Rust panics: `idx` at/past the end or not on a
char boundary. -/
def byteRemove (l : List Char) (i : Nat) : Option (List Char) :=
  match l, i with
  | [], _ => none
  | _ :: t, 0 => some t
  | h :: t, i =>
    if h.utf8Size ≤ i then (byteRemove t (i - h.utf8Size)).map (h :: ·)
    else none

/-- Rust `char::is_ascii_hexdigit`. -/
def isAsciiHexdigit (c : Char) : Bool :=
  (48 ≤ c.toNat && c.toNat ≤ 57) || (97 ≤ c.toNat && c.toNat ≤ 102) ||
    (65 ≤ c.toNat && c.toNat ≤ 70)

/-- Character-wise lowercase (ASCII range), modelling
`str::to_lowercase` on the ASCII data the program filters. -/
def lowerStr (l : List Char) : List Char := l.map Char.toLower

/-- Rust `str::contains(&str)`: substring test. -/
def strContains (hay needle : List Char) : Bool :=
  if needle.isPrefixOf hay then true
  else
    match hay with
    | [] => false
    | _ :: t => strContains t needle

/-- Decoded function signature (`model/transaction.rs`). -/
structure FunctionSignature where
  selector : List Char
  name : List Char
  deriving DecidableEq, Repr

/-- A transaction record (`model/transaction.rs::Transaction`). -/
structure Transaction where
  hash : List Char
  fromAddr : List Char
  toAddr : Option (List Char)
  value : List Char
  gas_limit : List Char
  gas_price : Option (List Char)
  data : List Char
  function_sig : Option FunctionSignature
  timestamp : Int
  block_number : Option Nat
  status : Option Bool
  gas_used : Option (List Char)
  effective_gas_price : Option (List Char)
  deriving DecidableEq, Repr

/-- Filter state (`filter.rs::FilterState`). `cursor_position` is a byte
index into `query`, exactly as in the Rust code. -/
structure FilterState where
  query : List Char
  active : Bool
  cursor_position : Nat
  deriving DecidableEq, Repr

namespace FilterState

/-- `FilterState::new` / `Default::default`. -/
def new : FilterState := ⟨[], false, 0⟩

/-- `FilterState::activate`. -/
def activate (f : FilterState) : FilterState :=
  { f with active := true, cursor_position := byteLen f.query }

/-- `FilterState::deactivate`. -/
def deactivate (f : FilterState) : FilterState := { f with active := false }

/-- `FilterState::clear`. -/
def clear (f : FilterState) : FilterState :=
  { f with query := [], cursor_position := 0 }

/-- `FilterState::is_active`. -/
def is_active (f : FilterState) : Bool := f.active

/-- `FilterState::has_query`. -/
def has_query (f : FilterState) : Bool := !f.query.isEmpty

/-- `FilterState::add_char`: `query.insert(cursor_position, c)` then
`cursor_position += 1` (a byte-index bump, whatever the width of `c`). -/
def add_char (f : FilterState) (c : Char) : Option FilterState :=
  (byteInsert f.query f.cursor_position c).map fun q =>
    { f with query := q, cursor_position := f.cursor_position + 1 }

/-- `FilterState::delete_char_before_cursor`. -/
def delete_char_before_cursor (f : FilterState) : Option FilterState :=
  if 0 < f.cursor_position then
    (byteRemove f.query (f.cursor_position - 1)).map fun q =>
      { f with query := q, cursor_position := f.cursor_position - 1 }
  else some f

/-- `FilterState::delete_char_at_cursor`. -/
def delete_char_at_cursor (f : FilterState) : Option FilterState :=
  if f.cursor_position < byteLen f.query then
    (byteRemove f.query f.cursor_position).map fun q => { f with query := q }
  else some f

/-- `FilterState::move_cursor_left` (`saturating_sub`). -/
def move_cursor_left (f : FilterState) : FilterState :=
  { f with cursor_position := f.cursor_position - 1 }

/-- `FilterState::move_cursor_right` (min with `query.len()`). -/
def move_cursor_right (f : FilterState) : FilterState :=
  { f with cursor_position := min (f.cursor_position + 1) (byteLen f.query) }

/-- `FilterState::move_cursor_to_start`. -/
def move_cursor_to_start (f : FilterState) : FilterState :=
  { f with cursor_position := 0 }

/-- `FilterState::move_cursor_to_end`. -/
def move_cursor_to_end (f : FilterState) : FilterState :=
  { f with cursor_position := byteLen f.query }

/-- `FilterState::is_transaction_hash`: byte length 66, leading `0x`, and
the remainder all ASCII hex digits.  (Given the `0x` prefix, byte index 2
is a char boundary, so the Rust slice `query[2..]` is `query.drop 2`.) -/
def is_transaction_hash (f : FilterState) : Bool :=
  byteLen f.query == 66 && ("0x".toList).isPrefixOf f.query &&
    (f.query.drop 2).all isAsciiHexdigit

/-- `FilterState::matches`: empty query matches everything; otherwise the
lowercased query must equal the lowercased hash, or be contained in the
from-address, or in the to-address when present, or — only when the query
is not itself a well-formed transaction hash — be contained in the hash. -/
def matchesTx (f : FilterState) (tx : Transaction) : Bool :=
  if f.query.isEmpty then true
  else
    let ql := lowerStr f.query
    if lowerStr tx.hash == ql then true
    else if strContains (lowerStr tx.fromAddr) ql then true
    else if (match tx.toAddr with
             | some t => strContains (lowerStr t) ql
             | none => false) then true
    else if !f.is_transaction_hash && strContains (lowerStr tx.hash) ql then
      true
    else false

end FilterState

/-- Viewport cursor (`app/state.rs::ScrollState`). -/
structure ScrollState where
  offset : Nat
  selected : Nat
  deriving DecidableEq, Repr

/-- Modelled fields of `app/state.rs::Stats` (the float/wall-clock fields
`transactions_per_second`, `memory_usage_mb`, `start_time`,
`last_perf_update` carry no claim and are omitted). -/
structure Stats where
  total_transactions : Nat
  connected : Bool
  last_error : Option (List Char)
  deriving DecidableEq, Repr

/-- `app/state.rs::Config`. -/
structure Config where
  rpc_url : List Char
  reconnect_attempts : Nat
  reconnect_delay : Nat
  max_transactions : Nat
  deriving DecidableEq, Repr

/-- `app/state.rs::AppState`.  The `VecDeque` is a `List` whose head is
the deque front.  The fields `quit_confirmation` and `filter` are read
and written by `app/handler.rs` but their declarations are not in
`state.rs`. Modelled from the spec: mode flags all start out false/inactive
(initial mode Normal), matching the spec's Mode-derived-from-flags design. -/
structure AppState where
  transactions : List Transaction
  max_transactions : Nat
  scroll_state : ScrollState
  stats : Stats
  config : Config
  should_quit : Bool
  show_new_on_top : Bool
  show_details : Bool
  selected_transaction : Option Transaction
  details_scroll_offset : Nat
  quit_confirmation : Bool
  filter : FilterState
  deriving Repr

namespace AppState

/-- `AppState::new`. -/
def new (config : Config) : AppState where
  transactions := []
  max_transactions := config.max_transactions
  scroll_state := ⟨0, 0⟩
  stats := ⟨0, false, none⟩
  config := config
  should_quit := false
  show_new_on_top := true
  show_details := false
  selected_transaction := none
  details_scroll_offset := 0
  quit_confirmation := false
  filter := FilterState.new

/-- `AppState::add_transaction`.  The `shrink_to_fit` memory optimisation
and `update_performance_stats` touch no modelled field. -/
def add_transaction (s : AppState) (tx : Transaction) : AppState :=
  let s :=
    if s.show_new_on_top then
      let txs := if s.transactions.length ≥ s.max_transactions then
          s.transactions.dropLast
        else s.transactions
      let txs := tx :: txs
      let scroll :=
        if !txs.isEmpty && decide (0 < s.scroll_state.selected) then
          ScrollState.mk (s.scroll_state.offset + 1) (s.scroll_state.selected + 1)
        else s.scroll_state
      { s with transactions := txs, scroll_state := scroll }
    else
      if s.transactions.length ≥ s.max_transactions then
        let sel := if 0 < s.scroll_state.selected then
            s.scroll_state.selected - 1
          else s.scroll_state.selected
        let off := if 0 < s.scroll_state.offset then
            s.scroll_state.offset - 1
          else s.scroll_state.offset
        { s with transactions := s.transactions.tail ++ [tx],
                 scroll_state := ⟨off, sel⟩ }
      else
        { s with transactions := s.transactions ++ [tx] }
  { s with stats := { s.stats with
      total_transactions := s.stats.total_transactions + 1 } }

/-- `AppState::scroll_up`. -/
def scroll_up (s : AppState) : AppState :=
  if 0 < s.scroll_state.selected then
    let sel := s.scroll_state.selected - 1
    let off := if sel < s.scroll_state.offset then sel else s.scroll_state.offset
    { s with scroll_state := ⟨off, sel⟩ }
  else s

/-- `AppState::scroll_down` (viewport height 20 as in the source). -/
def scroll_down (s : AppState) : AppState :=
  let maxSel := s.transactions.length - 1
  if s.scroll_state.selected < maxSel then
    let sel := min (s.scroll_state.selected + 1) maxSel
    let off := if s.scroll_state.offset + 20 ≤ sel then sel - 19
      else s.scroll_state.offset
    { s with scroll_state := ⟨off, sel⟩ }
  else s

/-- `AppState::page_up`: ten `scroll_up` steps. -/
def page_up (s : AppState) : AppState :=
  (List.range 10).foldl (fun st _ => st.scroll_up) s

/-- `AppState::page_down`: ten `scroll_down` steps. -/
def page_down (s : AppState) : AppState :=
  (List.range 10).foldl (fun st _ => st.scroll_down) s

/-- `AppState::jump_to_top`. -/
def jump_to_top (s : AppState) : AppState :=
  { s with scroll_state := ⟨0, 0⟩ }

/-- `AppState::jump_to_bottom` (offset shows the last page of 20). -/
def jump_to_bottom (s : AppState) : AppState :=
  let maxSel := s.transactions.length - 1
  { s with scroll_state := ⟨maxSel - 19, maxSel⟩ }

/-- `AppState::set_connected`. -/
def set_connected (s : AppState) (connected : Bool) : AppState :=
  { s with stats := { s.stats with
      connected := connected,
      last_error := if connected then none else s.stats.last_error } }

/-- `AppState::set_error`. -/
def set_error (s : AppState) (error : List Char) : AppState :=
  { s with stats := { s.stats with last_error := some error, connected := false } }

/-- `AppState::quit`. -/
def quit (s : AppState) : AppState := { s with should_quit := true }

/-- `AppState::toggle_sort_order`: flip the direction flag, reverse the
stored order (drain, reverse, extend), reset the viewport. -/
def toggle_sort_order (s : AppState) : AppState :=
  { s with show_new_on_top := !s.show_new_on_top,
           transactions := s.transactions.reverse,
           scroll_state := ⟨0, 0⟩ }

/-- `AppState::clear_transactions`. -/
def clear_transactions (s : AppState) : AppState :=
  { s with transactions := [],
           scroll_state := ⟨0, 0⟩,
           selected_transaction := none,
           show_details := false }

/-- `AppState::show_transaction_details` (the debug-log block is I/O
only). -/
def show_transaction_details (s : AppState) : AppState :=
  match s.transactions.get? s.scroll_state.selected with
  | some tx =>
    { s with selected_transaction := some tx,
             show_details := true,
             details_scroll_offset := 0 }
  | none => s

/-- `AppState::hide_transaction_details`. -/
def hide_transaction_details (s : AppState) : AppState :=
  { s with show_details := false,
           selected_transaction := none,
           details_scroll_offset := 0 }

/-- `AppState::scroll_details_up`. -/
def scroll_details_up (s : AppState) : AppState :=
  { s with details_scroll_offset := s.details_scroll_offset - 1 }

/-- `AppState::scroll_details_down`. -/
def scroll_details_down (s : AppState) : AppState :=
  { s with details_scroll_offset := s.details_scroll_offset + 1 }

/-- `AppState::scroll_details_page_up`. -/
def scroll_details_page_up (s : AppState) : AppState :=
  { s with details_scroll_offset := s.details_scroll_offset - 10 }

/-- `AppState::scroll_details_page_down`. -/
def scroll_details_page_down (s : AppState) : AppState :=
  { s with details_scroll_offset := s.details_scroll_offset + 10 }

end AppState

/-- The state-mutating operations the reachability claims quantify
over. -/
inductive Op where
  | add (tx : Transaction)
  | scrollUp
  | scrollDown
  | pageUp
  | pageDown
  | jumpToTop
  | jumpToBottom
  | toggleSortOrder
  | clearTransactions
  deriving DecidableEq, Repr

/-- Apply one operation to the state. -/
def Op.apply (s : AppState) : Op → AppState
  | .add tx => s.add_transaction tx
  | .scrollUp => s.scroll_up
  | .scrollDown => s.scroll_down
  | .pageUp => s.page_up
  | .pageDown => s.page_down
  | .jumpToTop => s.jump_to_top
  | .jumpToBottom => s.jump_to_bottom
  | .toggleSortOrder => s.toggle_sort_order
  | .clearTransactions => s.clear_transactions

/-- Run a sequence of operations from a starting state. -/
def runOps (ops : List Op) (s : AppState) : AppState :=
  ops.foldl Op.apply s

/-- `main.rs::TransactionBatch`: pending batch plus the `Instant` of the
last flush (`timer`), modelled as a `Nat` timestamp. -/
structure TransactionBatch where
  batch : List Transaction
  timer : Nat
  deriving DecidableEq, Repr

namespace TransactionBatch

/-- `TransactionBatch::new` at clock time `now`. -/
def new (now : Nat) : TransactionBatch := ⟨[], now⟩

/-- `TransactionBatch::flush` at clock time `now`: `none` when empty,
otherwise take the whole batch and restart the timer. -/
def flush (now : Nat) (b : TransactionBatch) :
    Option (List Transaction) × TransactionBatch :=
  if b.batch.isEmpty then (none, b) else (some b.batch, ⟨[], now⟩)

/-- `TransactionBatch::add` at clock time `now`: push, then flush when
the batch holds ≥ 10 records or more than 50 ms elapsed since the last
flush. -/
def add (now : Nat) (tx : Transaction) (b : TransactionBatch) :
    Option (List Transaction) × TransactionBatch :=
  let b' : TransactionBatch := { b with batch := b.batch ++ [tx] }
  if b'.batch.length ≥ 10 ∨ now - b'.timer > 50 then flush now b'
  else (none, b')

/-- `TransactionBatch::flush_if_timeout` at clock time `now`. -/
def flush_if_timeout (now : Nat) (b : TransactionBatch) :
    Option (List Transaction) × TransactionBatch :=
  if !b.batch.isEmpty ∧ now - b.timer > 50 then flush now b else (none, b)

end TransactionBatch

/-- Feed a timed sequence of records through `TransactionBatch.add`,
collecting every batch it emits, in order. -/
def runAdds : List (Nat × Transaction) → TransactionBatch →
    List (List Transaction) × TransactionBatch
  | [], b => ([], b)
  | (t, tx) :: rest, b =>
    let out := TransactionBatch.add t tx b
    let outs := runAdds rest out.2
    (out.1.toList ++ outs.1, outs.2)

/-- Keyboard modifiers (the two the handler inspects). -/
structure KeyModifiers where
  control : Bool
  shift : Bool
  deriving DecidableEq, Repr

/-- No modifier held. -/
def KeyModifiers.empty : KeyModifiers := ⟨false, false⟩

/-- The crossterm key codes the handler matches on; `null` stands for
every other key, which all dispatch arms send to their catch-all. -/
inductive KeyCode where
  | char (c : Char)
  | esc
  | enter
  | backspace
  | delete
  | left
  | right
  | home
  | endKey
  | up
  | down
  | pageUp
  | pageDown
  | null
  deriving DecidableEq, Repr

/-- A keyboard event. -/
structure KeyEvent where
  code : KeyCode
  modifiers : KeyModifiers
  deriving DecidableEq, Repr

/-- `handler.rs::handle_quit_confirmation`: `y`/`Y` quits, `n`/`N`/Esc
returns to the previous state, anything else is ignored. -/
def handle_quit_confirmation (key : KeyEvent) (s : AppState) : AppState :=
  match key.code with
  | .char c =>
    if c = 'y' ∨ c = 'Y' then s.quit
    else if c = 'n' ∨ c = 'N' then { s with quit_confirmation := false }
    else s
  | .esc => { s with quit_confirmation := false }
  | _ => s

/-- `handler.rs::handle_details_navigation`. -/
def handle_details_navigation (key : KeyEvent) (s : AppState) : AppState :=
  match key.code with
  | .esc => s.hide_transaction_details
  | .enter => s.hide_transaction_details
  | .char c =>
    if c = 'q' then s.hide_transaction_details
    else if c = 'k' then s.scroll_details_up
    else if c = 'j' then s.scroll_details_down
    else if c = 'g' then { s with details_scroll_offset := 0 }
    else s
  | .up => s.scroll_details_up
  | .down => s.scroll_details_down
  | .pageUp => s.scroll_details_page_up
  | .pageDown => s.scroll_details_page_down
  | .home => { s with details_scroll_offset := 0 }
  | _ => s

/-- Shared by the Esc-with-query and `\` arms: clear and deactivate the
filter and reset the viewport. -/
def clearFilterAndReset (s : AppState) : AppState :=
  { s with filter := s.filter.clear.deactivate, scroll_state := ⟨0, 0⟩ }

/-- `handler.rs::handle_filter_input`.  Character insertion and the two
deletes go through the byte-indexed `String` editing, so the result is an
`Option` (`none` = panic). -/
def handle_filter_input (key : KeyEvent) (s : AppState) : Option AppState :=
  match key.code with
  | .esc => some (clearFilterAndReset s)
  | .enter =>
    some { s with filter := s.filter.deactivate, scroll_state := ⟨0, 0⟩ }
  | .char c => (s.filter.add_char c).map fun f => { s with filter := f }
  | .backspace =>
    s.filter.delete_char_before_cursor.map fun f => { s with filter := f }
  | .delete =>
    s.filter.delete_char_at_cursor.map fun f => { s with filter := f }
  | .left => some { s with filter := s.filter.move_cursor_left }
  | .right => some { s with filter := s.filter.move_cursor_right }
  | .home => some { s with filter := s.filter.move_cursor_to_start }
  | .endKey => some { s with filter := s.filter.move_cursor_to_end }
  | _ => some s

/-- `handler.rs::handle_main_navigation`, arm for arm in source order
(the guarded `Ctrl-c` arm precedes the bare `c` arm). -/
def handle_main_navigation (key : KeyEvent) (s : AppState) : AppState :=
  match key.code with
  | .char c =>
    if c = 'q' then { s with quit_confirmation := true }
    else if c = 'c' ∧ key.modifiers.control then
      { s with quit_confirmation := true }
    else if c = '/' then { s with filter := s.filter.activate }
    else if c = '\\' then clearFilterAndReset s
    else if c = 'k' then s.scroll_up
    else if c = 'j' then s.scroll_down
    else if c = 'g' then s.jump_to_top
    else if c = 'G' then s.jump_to_bottom
    else if c = 'r' then s.set_connected false
    else if c = 't' then s.toggle_sort_order
    else if c = 'c' then s.clear_transactions
    else if c = 'C' ∧ key.modifiers.shift then s.clear_transactions
    else s
  | .esc =>
    if s.filter.has_query then clearFilterAndReset s
    else { s with quit_confirmation := true }
  | .up => s.scroll_up
  | .down => s.scroll_down
  | .pageUp => s.page_up
  | .pageDown => s.page_down
  | .home => s.jump_to_top
  | .endKey => s.jump_to_bottom
  | .enter => s.show_transaction_details
  | _ => s

/-- `handler.rs::handle_key_event`: mode dispatch in strict priority
order quit-confirmation, then filter editing, then details view, then
main navigation. -/
def handle_key_event (key : KeyEvent) (s : AppState) : Option AppState :=
  if s.quit_confirmation then some (handle_quit_confirmation key s)
  else if s.filter.is_active then handle_filter_input key s
  else if s.show_details then some (handle_details_navigation key s)
  else some (handle_main_navigation key s)

/-- Observable actions of one pass of the `main.rs::spawn_rpc_task` loop:
events sent on the app-event channel, records forwarded into the bounded
record channel, and the fixed 5 s sleep. -/
inductive RpcEv where
  | disconnected (msg : List Char)
  | connected
  | forward (tx : Transaction)
  | slept
  deriving DecidableEq, Repr

/-- `Disconnected` events carry a constructor tag only here. -/
def RpcEv.isDisconnected : RpcEv → Bool
  | .disconnected _ => true
  | _ => false

/-- Recognise the `Connected` event. -/
def RpcEv.isConnected : RpcEv → Bool
  | .connected => true
  | _ => false

/-- Outcome of one connect attempt by the external RPC collaborator:
connection refused, subscription refused, or a stream of records that
then ends. -/
inductive ConnectOutcome where
  | connectErr (e : List Char)
  | subscribeErr (e : List Char)
  | stream (txs : List Transaction)
  deriving DecidableEq, Repr

/-- The status message sent at the top of every supervisor iteration. -/
def connectingMsg : List Char := "Connecting to RPC endpoint...".toList

/-- The `format!("Connection error: {}", e)` message. -/
def connectErrMsg (e : List Char) : List Char :=
  "Connection error: ".toList ++ e

/-- The `format!("Subscription error: {}", e)` message. -/
def subscribeErrMsg (e : List Char) : List Char :=
  "Subscription error: ".toList ++ e

/-- One iteration of the `spawn_rpc_task` loop: announce the attempt with
a `Disconnected("Connecting…")`, act on the connect outcome, then sleep
the fixed 5 s delay. -/
def rpcIteration : ConnectOutcome → List RpcEv
  | .connectErr e =>
    [.disconnected connectingMsg, .disconnected (connectErrMsg e), .slept]
  | .subscribeErr e =>
    [.disconnected connectingMsg, .connected,
     .disconnected (subscribeErrMsg e), .slept]
  | .stream txs =>
    [.disconnected connectingMsg, .connected] ++ txs.map .forward ++ [.slept]

/-- Trace of the first `outs.length` iterations of the (infinite)
supervisor loop, the outcome of each connect attempt given by the
oracle list `outs`. -/
def runSupervisor : List ConnectOutcome → List RpcEv
  | [] => []
  | o :: rest => rpcIteration o ++ runSupervisor rest

/-- Whether an operation is an `add_transaction` call. -/
def Op.isAdd : Op → Bool
  | .add _ => true
  | _ => false

/-- The filter-editing operations reachable through
`handle_filter_input` and `handle_main_navigation`. -/
inductive FOp where
  | addChar (c : Char)
  | deleteBefore
  | deleteAt
  | moveLeft
  | moveRight
  | moveStart
  | moveEnd
  | activate
  | deactivate
  | clearQuery
  deriving DecidableEq, Repr

/-- Apply one filter-editing operation; `none` models a Rust panic. -/
def FOp.apply (f : FilterState) : FOp → Option FilterState
  | .addChar c => f.add_char c
  | .deleteBefore => f.delete_char_before_cursor
  | .deleteAt => f.delete_char_at_cursor
  | .moveLeft => some f.move_cursor_left
  | .moveRight => some f.move_cursor_right
  | .moveStart => some f.move_cursor_to_start
  | .moveEnd => some f.move_cursor_to_end
  | .activate => some f.activate
  | .deactivate => some f.deactivate
  | .clearQuery => some f.clear

/-- Run a sequence of filter-editing operations; `none` as soon as one
panics. -/
def runFOps (ops : List FOp) (f : FilterState) : Option FilterState :=
  match ops with
  | [] => some f
  | op :: rest =>
    match FOp.apply f op with
    | some f' => runFOps rest f'
    | none => none

/-- True unless the operation inserts a multi-byte character. -/
def FOp.insertsAsciiOnly : FOp → Bool
  | .addChar c => c.utf8Size == 1
  | _ => true

/-- A concrete record family for witnesses and counterexamples. -/
def sampleTx (n : Nat) : Transaction where
  hash := [Char.ofNat (97 + n)]
  fromAddr := "0xf00".toList
  toAddr := none
  value := []
  gas_limit := []
  gas_price := none
  data := []
  function_sig := none
  timestamp := 0
  block_number := none
  status := none
  gas_used := none
  effective_gas_price := none

/-- A concrete configuration with the given log capacity. -/
def sampleConfig (cap : Nat) : Config where
  rpc_url := []
  reconnect_attempts := 10
  reconnect_delay := 5000
  max_transactions := cap

/-- A well-formed 66-character transaction-hash-shaped query. -/
def wellformedHashQuery : List Char := '0' :: 'x' :: List.replicate 64 'a'

/-! ## Helper lemmas -/

/-- Every string contains the empty string. -/
lemma strContains_nil (hay : List Char) : strContains hay [] = true := by
  unfold strContains
  simp [List.isPrefixOf]

/-- The filter match condition, spelled out as a disjunction. -/
lemma matchesTx_iff (f : FilterState) (tx : Transaction) :
    f.matchesTx tx = true ↔
      (lowerStr tx.hash = lowerStr f.query ∨
       strContains (lowerStr tx.fromAddr) (lowerStr f.query) = true ∨
       (∃ t, tx.toAddr = some t ∧
         strContains (lowerStr t) (lowerStr f.query) = true) ∨
       (f.is_transaction_hash = false ∧
         strContains (lowerStr tx.hash) (lowerStr f.query) = true)) := by
  by_cases hq : f.query.isEmpty
  · have hq' : f.query = [] := by simpa [List.isEmpty_iff] using hq
    simp [FilterState.matchesTx, hq, hq', lowerStr, strContains_nil]
  · cases htx : tx.toAddr with
    | none =>
      simp only [FilterState.matchesTx, hq, htx]
      split_ifs with h1 h2 h3 <;> simp_all [beq_iff_eq]
    | some t =>
      simp only [FilterState.matchesTx, hq, htx]
      split_ifs with h1 h2 h3 <;> simp_all [beq_iff_eq]

end Web3TxStream

namespace Web3TxStream

/-! ## C3: filter matching -/

/-- C3: the empty query matches every record; a query that lowercases to
the record's hash matches it (case-insensitively); a record matches
exactly when its hash equals the query case-insensitively, or its
from-address contains the query, or its present to-address contains the
query, or — only when the query is not a well-formed `0x`+64-hex-digit
hash — its hash contains the query as a substring; consequently a
well-formed hash-shaped query that differs from a record's hash and is
contained in none of its addresses does not match it, even when it is a
substring of its hash. -/
theorem c3_filter_matches :
    (∀ (f : FilterState) (tx : Transaction), f.query = [] →
      f.matchesTx tx = true) ∧
    (∀ (f : FilterState) (tx : Transaction),
      lowerStr f.query = lowerStr tx.hash → f.matchesTx tx = true) ∧
    (∀ (f : FilterState) (tx : Transaction),
      f.matchesTx tx = true ↔
        (lowerStr tx.hash = lowerStr f.query ∨
         strContains (lowerStr tx.fromAddr) (lowerStr f.query) = true ∨
         (∃ t, tx.toAddr = some t ∧
           strContains (lowerStr t) (lowerStr f.query) = true) ∨
         (f.is_transaction_hash = false ∧
           strContains (lowerStr tx.hash) (lowerStr f.query) = true))) ∧
    (∀ (f : FilterState) (tx : Transaction),
      f.is_transaction_hash = true →
      lowerStr tx.hash ≠ lowerStr f.query →
      strContains (lowerStr tx.fromAddr) (lowerStr f.query) = false →
      (∀ t, tx.toAddr = some t →
        strContains (lowerStr t) (lowerStr f.query) = false) →
      f.matchesTx tx = false) := by
  refine ⟨fun f tx hq => ?_, fun f tx hq => ?_, matchesTx_iff, fun f tx hh hne hfrom hto => ?_⟩
  · rw [matchesTx_iff]
    exact Or.inr (Or.inl (by simp [hq, lowerStr, strContains_nil]))
  · rw [matchesTx_iff]
    exact Or.inl hq.symm
  · cases hb : f.matchesTx tx with
    | false => rfl
    | true =>
      rcases (matchesTx_iff f tx).mp hb with h | h | ⟨t, ht, hc⟩ | ⟨hw, _⟩
      · exact absurd h hne
      · rw [hfrom] at h
        exact absurd h (by simp)
      · rw [hto t ht] at hc
        exact absurd hc (by simp)
      · rw [hh] at hw
        exact absurd hw (by simp)

/-- Witness for C3: concrete instances of each hypothesised part — the
empty query matches a sample record, an uppercased single-char query
matches the record whose hash is its lowercase, and the well-formed
hash-shaped query `0x` + 64 × `a` fails to match a record whose hash
strictly extends it (so the query is a substring of the hash). -/
theorem c3_filter_matches_witness :
    FilterState.matchesTx ⟨[], false, 0⟩ (sampleTx 0) = true ∧
    FilterState.matchesTx ⟨['A'], true, 1⟩
      { sampleTx 0 with hash := ['a'] } = true ∧
    FilterState.matchesTx ⟨wellformedHashQuery, true, 66⟩
      { sampleTx 0 with hash := wellformedHashQuery ++ ['b'] } = false :=
  ⟨c3_filter_matches.1 _ _ rfl,
   c3_filter_matches.2.1 _ _ (by decide),
   c3_filter_matches.2.2.2 _ _ (by decide) (by decide) (by decide)
     (fun t h => nomatch h)⟩

/-! ## C8: sort-order toggle -/

/-- C8: one `toggle_sort_order` reverses the stored record order, flips
the direction flag and resets the viewport to offset 0, selected 0; two
in a row restore the original record order and flag, while the viewport
ends at (0, 0) rather than its original value. -/
theorem c8_toggle_sort_order (s : AppState) :
    s.toggle_sort_order.toggle_sort_order.transactions = s.transactions ∧
    s.toggle_sort_order.toggle_sort_order.show_new_on_top =
      s.show_new_on_top ∧
    s.toggle_sort_order.toggle_sort_order.scroll_state = ⟨0, 0⟩ ∧
    s.toggle_sort_order.transactions = s.transactions.reverse ∧
    s.toggle_sort_order.show_new_on_top = (!s.show_new_on_top) ∧
    s.toggle_sort_order.scroll_state = ⟨0, 0⟩ := by
  simp [AppState.toggle_sort_order]

/-! ## C7: reconnect supervisor trace -/

/-- Counterexample to C7 as stated: with two failed connect attempts and
then a successful one, the events emitted before the first `Connected`
are not exactly two `Disconnected`s — the supervisor also announces every
attempt with a `Disconnected("Connecting to RPC endpoint...")`, so five
`Disconnected` events precede `Connected`. -/
theorem c7_counterexample :
    ¬ ((((runSupervisor [ConnectOutcome.connectErr ['x'],
            ConnectOutcome.connectErr ['y'],
            ConnectOutcome.stream [sampleTx 0]]).takeWhile
          (fun e => !e.isConnected)).filter RpcEv.isDisconnected).length
        = 2) := by
  decide

/-- C7 (amended): when the connect attempt fails twice and then succeeds,
the trace is a `Disconnected("Connecting…")` announcement plus a
`Disconnected(connection-error)` for each failure, each failure followed
by the fixed retry delay, then a final `Disconnected("Connecting…")`
announcement, the `Connected` event, the records forwarded from the
stream, and nothing else. -/
theorem c7_supervisor_trace (e1 e2 : List Char) (txs : List Transaction) :
    runSupervisor [.connectErr e1, .connectErr e2, .stream txs] =
      [.disconnected connectingMsg, .disconnected (connectErrMsg e1),
       .slept,
       .disconnected connectingMsg, .disconnected (connectErrMsg e2),
       .slept,
       .disconnected connectingMsg, .connected] ++
        txs.map RpcEv.forward ++ [.slept] := by
  simp [runSupervisor, rpcIteration]


/-! ## Preservation lemmas for the operation semantics -/

lemma foldl_pres {α : Type} (f : AppState → AppState) (P : AppState → Prop)
    (hf : ∀ t, P t → P (f t)) :
    ∀ (l : List α) (s : AppState), P s → P (l.foldl (fun st _ => f st) s) := by
  intro l
  induction l with
  | nil => exact fun _ hs => hs
  | cons a t ih => exact fun s hs => ih _ (hf _ hs)

lemma scroll_up_transactions (s : AppState) :
    s.scroll_up.transactions = s.transactions := by
  unfold AppState.scroll_up; split <;> rfl

lemma scroll_up_max (s : AppState) :
    s.scroll_up.max_transactions = s.max_transactions := by
  unfold AppState.scroll_up; split <;> rfl

lemma scroll_up_stats (s : AppState) : s.scroll_up.stats = s.stats := by
  unfold AppState.scroll_up; split <;> rfl

lemma scroll_down_transactions (s : AppState) :
    s.scroll_down.transactions = s.transactions := by
  unfold AppState.scroll_down; dsimp only; split <;> rfl

lemma scroll_down_max (s : AppState) :
    s.scroll_down.max_transactions = s.max_transactions := by
  unfold AppState.scroll_down; dsimp only; split <;> rfl

lemma scroll_down_stats (s : AppState) : s.scroll_down.stats = s.stats := by
  unfold AppState.scroll_down; dsimp only; split <;> rfl

lemma page_up_transactions (s : AppState) :
    s.page_up.transactions = s.transactions :=
  foldl_pres AppState.scroll_up (fun t => t.transactions = s.transactions)
    (fun t ht => (scroll_up_transactions t).trans ht) _ s rfl

lemma page_up_max (s : AppState) :
    s.page_up.max_transactions = s.max_transactions :=
  foldl_pres AppState.scroll_up
    (fun t => t.max_transactions = s.max_transactions)
    (fun t ht => (scroll_up_max t).trans ht) _ s rfl

lemma page_up_stats (s : AppState) : s.page_up.stats = s.stats :=
  foldl_pres AppState.scroll_up (fun t => t.stats = s.stats)
    (fun t ht => (scroll_up_stats t).trans ht) _ s rfl

lemma page_down_transactions (s : AppState) :
    s.page_down.transactions = s.transactions :=
  foldl_pres AppState.scroll_down (fun t => t.transactions = s.transactions)
    (fun t ht => (scroll_down_transactions t).trans ht) _ s rfl

lemma page_down_max (s : AppState) :
    s.page_down.max_transactions = s.max_transactions :=
  foldl_pres AppState.scroll_down
    (fun t => t.max_transactions = s.max_transactions)
    (fun t ht => (scroll_down_max t).trans ht) _ s rfl

lemma page_down_stats (s : AppState) : s.page_down.stats = s.stats :=
  foldl_pres AppState.scroll_down (fun t => t.stats = s.stats)
    (fun t ht => (scroll_down_stats t).trans ht) _ s rfl

lemma add_transaction_max (s : AppState) (tx : Transaction) :
    (s.add_transaction tx).max_transactions = s.max_transactions := by
  unfold AppState.add_transaction; dsimp only; split_ifs <;> rfl

lemma add_transaction_total (s : AppState) (tx : Transaction) :
    (s.add_transaction tx).stats.total_transactions =
      s.stats.total_transactions + 1 := by
  unfold AppState.add_transaction; dsimp only; split_ifs <;> rfl

lemma add_transaction_show_new_on_top (s : AppState) (tx : Transaction) :
    (s.add_transaction tx).show_new_on_top = s.show_new_on_top := by
  unfold AppState.add_transaction; dsimp only; split_ifs <;> rfl

lemma add_transaction_length (s : AppState) (tx : Transaction) :
    (s.add_transaction tx).transactions.length =
      if s.transactions.length ≥ s.max_transactions then
        s.transactions.length - 1 + 1
      else s.transactions.length + 1 := by
  unfold AppState.add_transaction
  dsimp only
  split_ifs with h1 h2 h2 <;>
    simp_all [List.length_dropLast, List.length_tail]


/-! ## C1: bounded log length -/

lemma apply_pres_c1 (op : Op) (s : AppState)
    (hcap : 0 < s.max_transactions)
    (hlen : s.transactions.length ≤ s.max_transactions) :
    (op.apply s).max_transactions = s.max_transactions ∧
      (op.apply s).transactions.length ≤ s.max_transactions := by
  cases op with
  | add tx =>
    refine ⟨add_transaction_max s tx, ?_⟩
    show (s.add_transaction tx).transactions.length ≤ s.max_transactions
    rw [add_transaction_length]
    split_ifs with h <;> omega
  | scrollUp =>
    exact ⟨scroll_up_max s, by rw [show (Op.apply s Op.scrollUp) = s.scroll_up from rfl, scroll_up_transactions]; exact hlen⟩
  | scrollDown =>
    exact ⟨scroll_down_max s, by rw [show (Op.apply s Op.scrollDown) = s.scroll_down from rfl, scroll_down_transactions]; exact hlen⟩
  | pageUp =>
    exact ⟨page_up_max s, by rw [show (Op.apply s Op.pageUp) = s.page_up from rfl, page_up_transactions]; exact hlen⟩
  | pageDown =>
    exact ⟨page_down_max s, by rw [show (Op.apply s Op.pageDown) = s.page_down from rfl, page_down_transactions]; exact hlen⟩
  | jumpToTop => exact ⟨rfl, hlen⟩
  | jumpToBottom => exact ⟨rfl, hlen⟩
  | toggleSortOrder =>
    exact ⟨rfl, by simpa [Op.apply, AppState.toggle_sort_order] using hlen⟩
  | clearTransactions =>
    exact ⟨rfl, by simp [Op.apply, AppState.clear_transactions]⟩

lemma runOps_pres_c1 :
    ∀ (ops : List Op) (s : AppState), 0 < s.max_transactions →
      s.transactions.length ≤ s.max_transactions →
      (runOps ops s).max_transactions = s.max_transactions ∧
        (runOps ops s).transactions.length ≤ s.max_transactions := by
  intro ops
  induction ops with
  | nil => exact fun _ _ h => ⟨rfl, h⟩
  | cons op rest ih =>
    intro s hcap hlen
    obtain ⟨hmax, hlen'⟩ := apply_pres_c1 op s hcap hlen
    obtain ⟨ih1, ih2⟩ := ih (op.apply s) (hmax ▸ hcap) (hmax ▸ hlen')
    exact ⟨by simpa [runOps, hmax] using ih1, by simpa [runOps, hmax] using ih2⟩

/-- C1 (amended): for every configured capacity that is at least 1 and
every operation sequence — in either insertion direction — the log length
stays at most the capacity.  (The unamended claim fails at capacity 0,
see the counterexample: `add_transaction` evicts only before inserting,
so an empty log at capacity 0 still grows to length 1.) -/
theorem c1_length_le_capacity (cfg : Config) (ops : List Op)
    (hcap : 0 < cfg.max_transactions) :
    (runOps ops (AppState.new cfg)).transactions.length ≤
      cfg.max_transactions :=
  (runOps_pres_c1 ops (AppState.new cfg) hcap (Nat.zero_le _)).2

/-- Witness for C1: capacity 3 with five insertions interleaved with a
direction toggle keeps the length at most 3. -/
theorem c1_length_le_capacity_witness :
    0 < (sampleConfig 3).max_transactions ∧
    (runOps [Op.add (sampleTx 0), Op.add (sampleTx 1),
             Op.toggleSortOrder, Op.add (sampleTx 2), Op.add (sampleTx 3),
             Op.add (sampleTx 4)]
        (AppState.new (sampleConfig 3))).transactions.length ≤
      (sampleConfig 3).max_transactions :=
  ⟨by decide, c1_length_le_capacity (sampleConfig 3) _ (by decide)⟩

/-- Counterexample to C1 as stated: the capacity 0 is configurable
(`MAX_TRANSACTIONS=0` parses), and a single insertion then leaves the
log at length 1 > 0, in the default prepend direction. -/
theorem c1_counterexample :
    ¬ ((runOps [Op.add (sampleTx 0)]
          (AppState.new (sampleConfig 0))).transactions.length ≤
        (sampleConfig 0).max_transactions) := by
  decide

/-! ## C10: cumulative transaction count -/

lemma apply_stats_nonadd (op : Op) (s : AppState) (h : op.isAdd = false) :
    (op.apply s).stats = s.stats := by
  cases op with
  | add tx => simp [Op.isAdd] at h
  | scrollUp => exact scroll_up_stats s
  | scrollDown => exact scroll_down_stats s
  | pageUp => exact page_up_stats s
  | pageDown => exact page_down_stats s
  | jumpToTop => rfl
  | jumpToBottom => rfl
  | toggleSortOrder => rfl
  | clearTransactions => rfl

lemma runOps_total :
    ∀ (ops : List Op) (s : AppState),
      (runOps ops s).stats.total_transactions =
        s.stats.total_transactions + ops.countP Op.isAdd := by
  intro ops
  induction ops with
  | nil => simp [runOps]
  | cons op rest ih =>
    intro s
    have hcons : runOps (op :: rest) s = runOps rest (op.apply s) := rfl
    rw [hcons, ih, List.countP_cons]
    cases op with
    | add tx =>
      rw [show Op.apply s (Op.add tx) = s.add_transaction tx from rfl,
          add_transaction_total]
      simp [Op.isAdd]
      omega
    | scrollUp =>
      rw [apply_stats_nonadd Op.scrollUp s rfl]
      simp [Op.isAdd]
    | scrollDown =>
      rw [apply_stats_nonadd Op.scrollDown s rfl]
      simp [Op.isAdd]
    | pageUp =>
      rw [apply_stats_nonadd Op.pageUp s rfl]
      simp [Op.isAdd]
    | pageDown =>
      rw [apply_stats_nonadd Op.pageDown s rfl]
      simp [Op.isAdd]
    | jumpToTop =>
      rw [apply_stats_nonadd Op.jumpToTop s rfl]
      simp [Op.isAdd]
    | jumpToBottom =>
      rw [apply_stats_nonadd Op.jumpToBottom s rfl]
      simp [Op.isAdd]
    | toggleSortOrder =>
      rw [apply_stats_nonadd Op.toggleSortOrder s rfl]
      simp [Op.isAdd]
    | clearTransactions =>
      rw [apply_stats_nonadd Op.clearTransactions s rfl]
      simp [Op.isAdd]

/-- C10: after any operation sequence from a fresh state, the displayed
total equals the number of `add_transaction` calls — each call adds
exactly one even when it evicts at capacity, and `clear_transactions`
empties the log while leaving the stats (hence the cumulative total)
unchanged. -/
theorem c10_total_is_cumulative :
    (∀ (cfg : Config) (ops : List Op),
      (runOps ops (AppState.new cfg)).stats.total_transactions =
        ops.countP Op.isAdd) ∧
    (∀ (s : AppState) (tx : Transaction),
      (s.add_transaction tx).stats.total_transactions =
        s.stats.total_transactions + 1) ∧
    (∀ s : AppState,
      s.clear_transactions.transactions = [] ∧
        s.clear_transactions.stats = s.stats) :=
  ⟨fun cfg ops => by simpa [AppState.new] using runOps_total ops (AppState.new cfg),
   add_transaction_total,
   fun s => ⟨rfl, rfl⟩⟩


/-! ## C2: viewport invariant -/

lemma scroll_up_pres_le (s : AppState)
    (h : s.scroll_state.offset ≤ s.scroll_state.selected) :
    s.scroll_up.scroll_state.offset ≤ s.scroll_up.scroll_state.selected := by
  unfold AppState.scroll_up
  dsimp only
  split_ifs <;> first | omega | (dsimp only; omega)

lemma scroll_down_pres_le (s : AppState)
    (h : s.scroll_state.offset ≤ s.scroll_state.selected) :
    s.scroll_down.scroll_state.offset ≤ s.scroll_down.scroll_state.selected := by
  unfold AppState.scroll_down
  dsimp only
  simp only [Nat.min_def]
  split_ifs <;> first | omega | (dsimp only; omega)

lemma page_up_pres_le (s : AppState)
    (h : s.scroll_state.offset ≤ s.scroll_state.selected) :
    s.page_up.scroll_state.offset ≤ s.page_up.scroll_state.selected := by
  unfold AppState.page_up
  exact foldl_pres AppState.scroll_up
    (fun t => t.scroll_state.offset ≤ t.scroll_state.selected)
    scroll_up_pres_le _ s h

lemma page_down_pres_le (s : AppState)
    (h : s.scroll_state.offset ≤ s.scroll_state.selected) :
    s.page_down.scroll_state.offset ≤ s.page_down.scroll_state.selected := by
  unfold AppState.page_down
  exact foldl_pres AppState.scroll_down
    (fun t => t.scroll_state.offset ≤ t.scroll_state.selected)
    scroll_down_pres_le _ s h

lemma add_transaction_pres_le (s : AppState) (tx : Transaction)
    (h : s.scroll_state.offset ≤ s.scroll_state.selected) :
    (s.add_transaction tx).scroll_state.offset ≤
      (s.add_transaction tx).scroll_state.selected := by
  unfold AppState.add_transaction
  dsimp only
  split_ifs <;> simp_all
  all_goals omega

lemma apply_pres_le (op : Op) (s : AppState)
    (h : s.scroll_state.offset ≤ s.scroll_state.selected) :
    (op.apply s).scroll_state.offset ≤ (op.apply s).scroll_state.selected := by
  cases op with
  | add tx => exact add_transaction_pres_le s tx h
  | scrollUp => exact scroll_up_pres_le s h
  | scrollDown => exact scroll_down_pres_le s h
  | pageUp =>
    rw [show Op.apply s Op.pageUp = s.page_up from rfl]
    exact page_up_pres_le s h
  | pageDown =>
    rw [show Op.apply s Op.pageDown = s.page_down from rfl]
    exact page_down_pres_le s h
  | jumpToTop => exact Nat.le_refl 0
  | jumpToBottom =>
    show (s.jump_to_bottom).scroll_state.offset ≤
      (s.jump_to_bottom).scroll_state.selected
    unfold AppState.jump_to_bottom
    dsimp only
    omega
  | toggleSortOrder => exact Nat.le_refl 0
  | clearTransactions => exact Nat.le_refl 0

lemma runOps_pres_le :
    ∀ (ops : List Op) (s : AppState),
      s.scroll_state.offset ≤ s.scroll_state.selected →
      (runOps ops s).scroll_state.offset ≤
        (runOps ops s).scroll_state.selected := by
  intro ops
  induction ops with
  | nil => exact fun _ h => h
  | cons op rest ih => exact fun s h => ih (op.apply s) (apply_pres_le op s h)

/-- C2 (amended): from the initial state, every sequence of the listed
operations keeps `offset ≤ selected` (and `0 ≤ selected` trivially).  The
claimed bound `selected < max(length, 1)` does not hold in general: a
prepend-mode insertion at capacity with `selected > 0` shifts the
selection past the end of the unchanged-length log (see the
counterexample). -/
theorem c2_offset_le_selected (cfg : Config) (ops : List Op) :
    (runOps ops (AppState.new cfg)).scroll_state.offset ≤
      (runOps ops (AppState.new cfg)).scroll_state.selected :=
  runOps_pres_le ops (AppState.new cfg) (Nat.le_refl 0)

/-- Counterexample to C2 as stated: with capacity 2, inserting twice in
prepend mode, scrolling down once and inserting again yields
`selected = 2` with log length 2, violating
`selected < max(length, 1)`. -/
theorem c2_counterexample :
    ¬ ((runOps [Op.add (sampleTx 0), Op.add (sampleTx 1), Op.scrollDown,
          Op.add (sampleTx 2)]
          (AppState.new (sampleConfig 2))).scroll_state.selected <
        max (runOps [Op.add (sampleTx 0), Op.add (sampleTx 1),
          Op.scrollDown, Op.add (sampleTx 2)]
          (AppState.new (sampleConfig 2))).transactions.length 1) := by
  decide


/-! ## C4: insertion order and eviction -/

lemma add_transactions_no_evict_prepend (s : AppState) (tx : Transaction)
    (hd : s.show_new_on_top = true)
    (hlen : s.transactions.length < s.max_transactions) :
    (s.add_transaction tx).transactions = tx :: s.transactions := by
  unfold AppState.add_transaction
  dsimp only
  simp [hd, Nat.not_le.mpr hlen]

lemma add_transactions_no_evict_append (s : AppState) (tx : Transaction)
    (hd : s.show_new_on_top = false)
    (hlen : s.transactions.length < s.max_transactions) :
    (s.add_transaction tx).transactions = s.transactions ++ [tx] := by
  unfold AppState.add_transaction
  dsimp only
  simp [hd, Nat.not_le.mpr hlen]

lemma runAdds_prepend :
    ∀ (txs : List Transaction) (s : AppState),
      s.show_new_on_top = true →
      s.transactions.length + txs.length ≤ s.max_transactions →
      (runOps (txs.map Op.add) s).transactions =
        txs.reverse ++ s.transactions := by
  intro txs
  induction txs with
  | nil => intro s _ _; simp [runOps]
  | cons t rest ih =>
    intro s hd hlen
    have hlt : s.transactions.length < s.max_transactions := by
      simp only [List.length_cons] at hlen; omega
    have ha := add_transactions_no_evict_prepend s t hd hlt
    have hd' : (s.add_transaction t).show_new_on_top = true := by
      rw [add_transaction_show_new_on_top]; exact hd
    have hlen' : (s.add_transaction t).transactions.length + rest.length ≤
        (s.add_transaction t).max_transactions := by
      rw [add_transaction_max, ha]
      simp only [List.length_cons] at hlen ⊢
      omega
    have h1 : runOps ((t :: rest).map Op.add) s =
        runOps (rest.map Op.add) (s.add_transaction t) := rfl
    rw [h1, ih (s.add_transaction t) hd' hlen', ha]
    simp

lemma runAdds_append :
    ∀ (txs : List Transaction) (s : AppState),
      s.show_new_on_top = false →
      s.transactions.length + txs.length ≤ s.max_transactions →
      (runOps (txs.map Op.add) s).transactions =
        s.transactions ++ txs := by
  intro txs
  induction txs with
  | nil => intro s _ _; simp [runOps]
  | cons t rest ih =>
    intro s hd hlen
    have hlt : s.transactions.length < s.max_transactions := by
      simp only [List.length_cons] at hlen; omega
    have ha := add_transactions_no_evict_append s t hd hlt
    have hd' : (s.add_transaction t).show_new_on_top = false := by
      rw [add_transaction_show_new_on_top]; exact hd
    have hlen' : (s.add_transaction t).transactions.length + rest.length ≤
        (s.add_transaction t).max_transactions := by
      rw [add_transaction_max, ha]
      simp only [List.length_cons, List.length_append, List.length_nil] at hlen ⊢
      omega
    have h1 : runOps ((t :: rest).map Op.add) s =
        runOps (rest.map Op.add) (s.add_transaction t) := rfl
    rw [h1, ih (s.add_transaction t) hd' hlen', ha]
    simp

/-- C4: from the fresh state, inserting N ≤ capacity records in prepend
mode (the default direction) leaves the log in reverse insertion order;
after a direction toggle (append mode) it is in insertion order; and with
capacity 3 in prepend mode, inserting R1, R2, R3, R4 leaves the log
reading [R4, R3, R2], with R1 (when distinct from the others) evicted. -/
theorem c4_insertion_order :
    (∀ (cfg : Config) (txs : List Transaction),
      txs.length ≤ cfg.max_transactions →
      (runOps (txs.map Op.add) (AppState.new cfg)).transactions =
        txs.reverse) ∧
    (∀ (cfg : Config) (txs : List Transaction),
      txs.length ≤ cfg.max_transactions →
      (runOps (Op.toggleSortOrder :: txs.map Op.add)
          (AppState.new cfg)).transactions = txs) ∧
    (∀ (r1 r2 r3 r4 : Transaction) (cfg : Config),
      cfg.max_transactions = 3 →
      (runOps [Op.add r1, Op.add r2, Op.add r3, Op.add r4]
          (AppState.new cfg)).transactions = [r4, r3, r2] ∧
      (r1 ≠ r2 → r1 ≠ r3 → r1 ≠ r4 →
        r1 ∉ (runOps [Op.add r1, Op.add r2, Op.add r3, Op.add r4]
          (AppState.new cfg)).transactions)) := by
  refine ⟨fun cfg txs h => ?_, fun cfg txs h => ?_, fun r1 r2 r3 r4 cfg h => ?_⟩
  · rw [runAdds_prepend txs (AppState.new cfg) rfl (by simpa [AppState.new] using h)]
    simp [AppState.new]
  · have h1 : runOps (Op.toggleSortOrder :: txs.map Op.add) (AppState.new cfg) =
        runOps (txs.map Op.add) ((AppState.new cfg).toggle_sort_order) := rfl
    rw [h1, runAdds_append txs _ rfl
      (by simpa [AppState.new, AppState.toggle_sort_order] using h)]
    simp [AppState.new, AppState.toggle_sort_order]
  · obtain ⟨url, att, del, m⟩ := cfg
    simp only [Config.max_transactions] at h
    subst h
    have heq : (runOps [Op.add r1, Op.add r2, Op.add r3, Op.add r4]
        (AppState.new ⟨url, att, del, 3⟩)).transactions = [r4, r3, r2] := rfl
    refine ⟨heq, fun h2 h3 h4 => ?_⟩
    rw [heq]
    simp [h2, h3, h4]

/-- Witness for C4: with capacity 3, two prepend-mode insertions produce
the reversed pair, a toggle then two insertions produce the pair in
order, and the four-insertion scenario yields [R4, R3, R2] without R1. -/
theorem c4_insertion_order_witness :
    (runOps ([sampleTx 0, sampleTx 1].map Op.add)
        (AppState.new (sampleConfig 3))).transactions =
      [sampleTx 1, sampleTx 0] ∧
    (runOps (Op.toggleSortOrder :: [sampleTx 0, sampleTx 1].map Op.add)
        (AppState.new (sampleConfig 3))).transactions =
      [sampleTx 0, sampleTx 1] ∧
    (runOps [Op.add (sampleTx 0), Op.add (sampleTx 1), Op.add (sampleTx 2),
        Op.add (sampleTx 3)]
        (AppState.new (sampleConfig 3))).transactions =
      [sampleTx 3, sampleTx 2, sampleTx 1] ∧
    sampleTx 0 ∉ (runOps [Op.add (sampleTx 0), Op.add (sampleTx 1),
        Op.add (sampleTx 2), Op.add (sampleTx 3)]
        (AppState.new (sampleConfig 3))).transactions :=
  ⟨c4_insertion_order.1 (sampleConfig 3) _ (by decide),
   c4_insertion_order.2.1 (sampleConfig 3) _ (by decide),
   (c4_insertion_order.2.2 (sampleTx 0) (sampleTx 1) (sampleTx 2) (sampleTx 3)
      (sampleConfig 3) rfl).1,
   (c4_insertion_order.2.2 (sampleTx 0) (sampleTx 1) (sampleTx 2) (sampleTx 3)
      (sampleConfig 3) rfl).2 (by decide) (by decide) (by decide)⟩


/-! ## C5: batcher -/

lemma add_eq (now : Nat) (tx : Transaction) (b : TransactionBatch) :
    TransactionBatch.add now tx b =
      if b.batch.length + 1 ≥ 10 ∨ now - b.timer > 50 then
        (some (b.batch ++ [tx]), ⟨[], now⟩)
      else (none, ⟨b.batch ++ [tx], b.timer⟩) := by
  unfold TransactionBatch.add TransactionBatch.flush
  dsimp only
  split_ifs with h1 h2 h3 <;> simp_all
  all_goals omega

lemma flush_if_timeout_eq (now : Nat) (b : TransactionBatch) :
    TransactionBatch.flush_if_timeout now b =
      if b.batch ≠ [] ∧ now - b.timer > 50 then (some b.batch, ⟨[], now⟩)
      else (none, b) := by
  unfold TransactionBatch.flush_if_timeout TransactionBatch.flush
  split_ifs with h1 h2 h3 <;> simp_all

lemma runAdds_no_flush :
    ∀ (events : List (Nat × Transaction)) (b : TransactionBatch),
      b.batch.length + events.length < 10 →
      (∀ p ∈ events, p.1 - b.timer ≤ 50) →
      runAdds events b = ([], ⟨b.batch ++ events.map Prod.snd, b.timer⟩) := by
  intro events
  induction events with
  | nil => intro b _ _; simp [runAdds]
  | cons p rest ih =>
    intro b hlen htime
    obtain ⟨t, tx⟩ := p
    have h50 : t - b.timer ≤ 50 := htime (t, tx) (by simp)
    have hcond : ¬ (b.batch.length + 1 ≥ 10 ∨ t - b.timer > 50) := by
      simp only [List.length_cons] at hlen
      rintro (h | h) <;> omega
    simp only [runAdds]
    rw [add_eq, if_neg hcond]
    dsimp only
    rw [ih ⟨b.batch ++ [tx], b.timer⟩
      (by simp only [List.length_cons] at hlen
          simp only [List.length_append, List.length_cons, List.length_nil]
          omega)
      (fun q hq => htime q (List.mem_cons_of_mem _ hq))]
    simp

lemma runAdds_append_ev :
    ∀ (xs ys : List (Nat × Transaction)) (b : TransactionBatch),
      runAdds (xs ++ ys) b =
        ((runAdds xs b).1 ++ (runAdds ys (runAdds xs b).2).1,
         (runAdds ys (runAdds xs b).2).2) := by
  intro xs
  induction xs with
  | nil => intro ys b; simp [runAdds]
  | cons p rest ih =>
    intro ys b
    obtain ⟨t, tx⟩ := p
    simp only [List.cons_append, runAdds, List.append_eq]
    rw [ih]
    simp [List.append_assoc]

/-- C5: `add` drains and returns the whole pending batch (with the new
record appended, in arrival order) exactly when the resulting length is
at least 10 or more than 50 ms elapsed since the batch started, and
otherwise just appends; nine adds within the timeout produce no flush;
the tenth flushes all ten in arrival order; and `flush_if_timeout` drains
exactly the pending items when the batch is non-empty and more than 50 ms
elapsed, returning nothing otherwise. -/
theorem c5_batcher :
    (∀ (now : Nat) (tx : Transaction) (b : TransactionBatch),
      TransactionBatch.add now tx b =
        if b.batch.length + 1 ≥ 10 ∨ now - b.timer > 50 then
          (some (b.batch ++ [tx]), ⟨[], now⟩)
        else (none, ⟨b.batch ++ [tx], b.timer⟩)) ∧
    (∀ (t0 : Nat) (events : List (Nat × Transaction)),
      events.length ≤ 9 →
      (∀ p ∈ events, p.1 ≤ t0 + 50) →
      runAdds events (TransactionBatch.new t0) =
        ([], ⟨events.map Prod.snd, t0⟩)) ∧
    (∀ (t0 : Nat) (e1 e2 e3 e4 e5 e6 e7 e8 e9 e10 : Nat × Transaction),
      (∀ p ∈ [e1, e2, e3, e4, e5, e6, e7, e8, e9], p.1 ≤ t0 + 50) →
      runAdds [e1, e2, e3, e4, e5, e6, e7, e8, e9, e10]
          (TransactionBatch.new t0) =
        ([[e1.2, e2.2, e3.2, e4.2, e5.2, e6.2, e7.2, e8.2, e9.2, e10.2]],
         ⟨[], e10.1⟩)) ∧
    (∀ (now : Nat) (b : TransactionBatch),
      TransactionBatch.flush_if_timeout now b =
        if b.batch ≠ [] ∧ now - b.timer > 50 then
          (some b.batch, ⟨[], now⟩)
        else (none, b)) := by
  refine ⟨add_eq, fun t0 events h9 htime => ?_, fun t0 e1 e2 e3 e4 e5 e6 e7 e8 e9 e10 htime => ?_, flush_if_timeout_eq⟩
  · rw [runAdds_no_flush events (TransactionBatch.new t0)
      (by simpa [TransactionBatch.new] using by omega)
      (fun p hp => by have := htime p hp; simp [TransactionBatch.new]; omega)]
    simp [TransactionBatch.new]
  · have hsplit : [e1, e2, e3, e4, e5, e6, e7, e8, e9, e10] =
        [e1, e2, e3, e4, e5, e6, e7, e8, e9] ++ [e10] := rfl
    rw [hsplit, runAdds_append_ev,
        runAdds_no_flush [e1, e2, e3, e4, e5, e6, e7, e8, e9]
          (TransactionBatch.new t0)
          (by simp [show TransactionBatch.new t0 = ⟨[], t0⟩ from rfl])
          (fun p hp => by
            have := htime p hp
            simp only [show TransactionBatch.new t0 = ⟨[], t0⟩ from rfl]
            omega)]
    obtain ⟨t10, x10⟩ := e10
    simp only [runAdds]
    rw [add_eq]
    rw [if_pos (by simp [show TransactionBatch.new t0 = ⟨[], t0⟩ from rfl])]
    simp [show TransactionBatch.new t0 = ⟨[], t0⟩ from rfl]


/-- Witness for C5: two early adds produce no flush and accumulate in
order; ten adds (the first nine within the timeout) produce exactly one
flush carrying all ten in arrival order; a timeout flush at 100 ms drains
a pending singleton. -/
theorem c5_batcher_witness :
    runAdds [(0, sampleTx 0), (1, sampleTx 1)] (TransactionBatch.new 0) =
      ([], ⟨[sampleTx 0, sampleTx 1], 0⟩) ∧
    runAdds [(0, sampleTx 0), (1, sampleTx 1), (2, sampleTx 2),
        (3, sampleTx 3), (4, sampleTx 4), (5, sampleTx 5), (6, sampleTx 6),
        (7, sampleTx 7), (8, sampleTx 8), (60, sampleTx 9)]
        (TransactionBatch.new 0) =
      ([[sampleTx 0, sampleTx 1, sampleTx 2, sampleTx 3, sampleTx 4,
         sampleTx 5, sampleTx 6, sampleTx 7, sampleTx 8, sampleTx 9]],
       ⟨[], 60⟩) ∧
    TransactionBatch.flush_if_timeout 100 ⟨[sampleTx 0], 0⟩ =
      (some [sampleTx 0], ⟨[], 100⟩) :=
  ⟨c5_batcher.2.1 0 _ (by decide) (by decide),
   c5_batcher.2.2.1 0 _ _ _ _ _ _ _ _ _ _ (by decide),
   by rw [c5_batcher.2.2.2 100 ⟨[sampleTx 0], 0⟩]; decide⟩

/-! ## C6: mode dispatch and quit confirmation -/

/-- C6: key events are dispatched by mode in strict priority order
quit-confirmation > filter-editing > details > normal; and from a Normal
state with the quit flag clear, `q` enters quit confirmation leaving the
quit flag false, `n` there returns to exactly the previous state with the
flag still false, and `y` there sets the quit flag. -/
theorem c6_mode_dispatch :
    (∀ (key : KeyEvent) (s : AppState), s.quit_confirmation = true →
      handle_key_event key s = some (handle_quit_confirmation key s)) ∧
    (∀ (key : KeyEvent) (s : AppState), s.quit_confirmation = false →
      s.filter.active = true →
      handle_key_event key s = handle_filter_input key s) ∧
    (∀ (key : KeyEvent) (s : AppState), s.quit_confirmation = false →
      s.filter.active = false → s.show_details = true →
      handle_key_event key s = some (handle_details_navigation key s)) ∧
    (∀ (key : KeyEvent) (s : AppState), s.quit_confirmation = false →
      s.filter.active = false → s.show_details = false →
      handle_key_event key s = some (handle_main_navigation key s)) ∧
    (∀ s : AppState, s.quit_confirmation = false → s.filter.active = false →
      s.show_details = false → s.should_quit = false →
      handle_key_event ⟨.char 'q', .empty⟩ s =
        some { s with quit_confirmation := true } ∧
      ({ s with quit_confirmation := true } : AppState).should_quit = false ∧
      handle_key_event ⟨.char 'n', .empty⟩
        { s with quit_confirmation := true } = some s ∧
      handle_key_event ⟨.char 'y', .empty⟩
        { s with quit_confirmation := true } =
        some { s with
          quit_confirmation := true, should_quit := true }) := by
  refine ⟨fun key s h => ?_, fun key s h1 h2 => ?_, fun key s h1 h2 h3 => ?_,
    fun key s h1 h2 h3 => ?_, fun s h1 h2 h3 h4 => ?_⟩
  · simp [handle_key_event, h]
  · simp [handle_key_event, FilterState.is_active, h1, h2]
  · simp [handle_key_event, FilterState.is_active, h1, h2, h3]
  · simp [handle_key_event, FilterState.is_active, h1, h2, h3]
  · obtain ⟨tr, mx, sc, st, cf, sq, sn, sd, se, dso, qc, fl⟩ := s
    obtain ⟨fq, fa, fc⟩ := fl
    simp only at h1 h2 h3 h4
    subst h1 h2 h3 h4
    exact ⟨rfl, rfl, rfl, rfl⟩

/-- Witness for C6: each dispatch equation at a concrete state in the
corresponding mode, and the full q/n/q/y scenario run from the initial
state. -/
theorem c6_mode_dispatch_witness :
    (handle_key_event ⟨.esc, .empty⟩
        { AppState.new (sampleConfig 1) with quit_confirmation := true } =
      some (handle_quit_confirmation ⟨.esc, .empty⟩
        { AppState.new (sampleConfig 1) with quit_confirmation := true })) ∧
    (handle_key_event ⟨.left, .empty⟩
        { AppState.new (sampleConfig 1) with filter := ⟨[], true, 0⟩ } =
      handle_filter_input ⟨.left, .empty⟩
        { AppState.new (sampleConfig 1) with filter := ⟨[], true, 0⟩ }) ∧
    (handle_key_event ⟨.up, .empty⟩
        { AppState.new (sampleConfig 1) with show_details := true } =
      some (handle_details_navigation ⟨.up, .empty⟩
        { AppState.new (sampleConfig 1) with show_details := true })) ∧
    (handle_key_event ⟨.down, .empty⟩ (AppState.new (sampleConfig 1)) =
      some (handle_main_navigation ⟨.down, .empty⟩
        (AppState.new (sampleConfig 1)))) ∧
    (handle_key_event ⟨.char 'q', .empty⟩ (AppState.new (sampleConfig 1)) =
      some { AppState.new (sampleConfig 1) with quit_confirmation := true }) ∧
    (handle_key_event ⟨.char 'n', .empty⟩
        { AppState.new (sampleConfig 1) with quit_confirmation := true } =
      some (AppState.new (sampleConfig 1))) ∧
    (handle_key_event ⟨.char 'y', .empty⟩
        { AppState.new (sampleConfig 1) with quit_confirmation := true } =
      some { AppState.new (sampleConfig 1) with
             quit_confirmation := true, should_quit := true }) :=
  ⟨c6_mode_dispatch.1 _ _ rfl,
   c6_mode_dispatch.2.1 _ _ rfl rfl,
   c6_mode_dispatch.2.2.1 _ _ rfl rfl rfl,
   c6_mode_dispatch.2.2.2.1 _ _ rfl rfl rfl,
   (c6_mode_dispatch.2.2.2.2 _ rfl rfl rfl rfl).1,
   (c6_mode_dispatch.2.2.2.2 _ rfl rfl rfl rfl).2.2.1,
   (c6_mode_dispatch.2.2.2.2 _ rfl rfl rfl rfl).2.2.2⟩


/-! ## C9: filter editing safety -/

lemma byteLen_ascii :
    ∀ (l : List Char), (∀ x ∈ l, x.utf8Size = 1) → byteLen l = l.length := by
  intro l
  induction l with
  | nil => intro _; rfl
  | cons h t ih =>
    intro hl
    have h1 : h.utf8Size = 1 := hl h (by simp)
    simp only [byteLen, List.length_cons, h1, ih (fun x hx => hl x (by simp [hx]))]
    omega

lemma byteInsert_ascii :
    ∀ (l : List Char) (i : Nat) (c : Char), (∀ x ∈ l, x.utf8Size = 1) →
      i ≤ byteLen l → c.utf8Size = 1 →
      ∃ l', byteInsert l i c = some l' ∧ byteLen l' = byteLen l + 1 ∧
        ∀ x ∈ l', x.utf8Size = 1 := by
  intro l
  induction l with
  | nil =>
    intro i c _ hi hc
    cases i with
    | zero =>
      exact ⟨[c], rfl, by simp [byteLen, hc],
        fun x hx => by simp at hx; simp [hx, hc]⟩
    | succ j => simp [byteLen] at hi
  | cons h t ih =>
    intro i c hl hi hc
    have hh : h.utf8Size = 1 := hl h (by simp)
    cases i with
    | zero =>
      refine ⟨c :: h :: t, rfl, by simp [byteLen, hc]; omega, ?_⟩
      intro x hx
      rcases List.mem_cons.mp hx with hx | hx
      · simp [hx, hc]
      · exact hl x hx
    | succ j =>
      have hj : j ≤ byteLen t := by
        simp only [byteLen, hh] at hi; omega
      obtain ⟨t', ht', hlen, hmem⟩ :=
        ih j c (fun x hx => hl x (by simp [hx])) hj hc
      refine ⟨h :: t', ?_, ?_, ?_⟩
      · show (if h.utf8Size ≤ j + 1 then
            (byteInsert t (j + 1 - h.utf8Size) c).map (h :: ·)
          else none) = some (h :: t')
        rw [if_pos (by omega : h.utf8Size ≤ j + 1), hh]
        simp [ht']
      · simp only [byteLen]; omega
      · intro x hx
        rcases List.mem_cons.mp hx with hx | hx
        · simp [hx, hh]
        · exact hmem x hx

lemma byteRemove_ascii :
    ∀ (l : List Char) (i : Nat), (∀ x ∈ l, x.utf8Size = 1) →
      i < byteLen l →
      ∃ l', byteRemove l i = some l' ∧ byteLen l' + 1 = byteLen l ∧
        ∀ x ∈ l', x.utf8Size = 1 := by
  intro l
  induction l with
  | nil => intro i _ hi; simp [byteLen] at hi
  | cons h t ih =>
    intro i hl hi
    have hh : h.utf8Size = 1 := hl h (by simp)
    cases i with
    | zero =>
      exact ⟨t, rfl, by simp [byteLen, hh]; omega,
        fun x hx => hl x (by simp [hx])⟩
    | succ j =>
      have hj : j < byteLen t := by
        simp only [byteLen, hh] at hi; omega
      obtain ⟨t', ht', hlen, hmem⟩ :=
        ih j (fun x hx => hl x (by simp [hx])) hj
      refine ⟨h :: t', ?_, ?_, ?_⟩
      · show (if h.utf8Size ≤ j + 1 then
            (byteRemove t (j + 1 - h.utf8Size)).map (h :: ·)
          else none) = some (h :: t')
        rw [if_pos (by omega : h.utf8Size ≤ j + 1), hh]
        simp [ht']
      · simp only [byteLen]; omega
      · intro x hx
        rcases List.mem_cons.mp hx with hx | hx
        · simp [hx, hh]
        · exact hmem x hx

/-- The invariant maintained by ASCII-only filter editing: the byte
cursor is within the query and the query holds single-byte chars only. -/
def FInv (f : FilterState) : Prop :=
  f.cursor_position ≤ byteLen f.query ∧ ∀ x ∈ f.query, x.utf8Size = 1

lemma fop_pres (op : FOp) (f : FilterState)
    (hop : op.insertsAsciiOnly = true) (h : FInv f) :
    ∃ f', FOp.apply f op = some f' ∧ FInv f' := by
  obtain ⟨hcur, hq⟩ := h
  cases op with
  | addChar c =>
    have hc : c.utf8Size = 1 := by
      simpa [FOp.insertsAsciiOnly] using hop
    obtain ⟨q', hq', hlen, hmem⟩ :=
      byteInsert_ascii f.query f.cursor_position c hq hcur hc
    refine ⟨{ f with
      query := q', cursor_position := f.cursor_position + 1 }, ?_, ?_, hmem⟩
    · show f.add_char c = _
      unfold FilterState.add_char
      rw [hq']
      rfl
    · show f.cursor_position + 1 ≤ byteLen q'
      omega
  | deleteBefore =>
    by_cases hpos : 0 < f.cursor_position
    · have hlt : f.cursor_position - 1 < byteLen f.query := by omega
      obtain ⟨q', hq', hlen, hmem⟩ :=
        byteRemove_ascii f.query (f.cursor_position - 1) hq hlt
      refine ⟨{ f with
        query := q', cursor_position := f.cursor_position - 1 }, ?_, ?_, hmem⟩
      · show f.delete_char_before_cursor = _
        unfold FilterState.delete_char_before_cursor
        rw [if_pos hpos, hq']
        rfl
      · show f.cursor_position - 1 ≤ byteLen q'
        omega
    · refine ⟨f, ?_, hcur, hq⟩
      show f.delete_char_before_cursor = some f
      unfold FilterState.delete_char_before_cursor
      rw [if_neg hpos]
  | deleteAt =>
    by_cases hlt : f.cursor_position < byteLen f.query
    · obtain ⟨q', hq', hlen, hmem⟩ :=
        byteRemove_ascii f.query f.cursor_position hq hlt
      refine ⟨{ f with query := q' }, ?_, ?_, hmem⟩
      · show f.delete_char_at_cursor = _
        unfold FilterState.delete_char_at_cursor
        rw [if_pos hlt, hq']
        rfl
      · show f.cursor_position ≤ byteLen q'
        omega
    · refine ⟨f, ?_, hcur, hq⟩
      show f.delete_char_at_cursor = some f
      unfold FilterState.delete_char_at_cursor
      rw [if_neg hlt]
  | moveLeft =>
    exact ⟨f.move_cursor_left, rfl, by
      show f.cursor_position - 1 ≤ byteLen f.query
      omega, hq⟩
  | moveRight =>
    exact ⟨f.move_cursor_right, rfl, by
      show min (f.cursor_position + 1) (byteLen f.query) ≤ byteLen f.query
      omega, hq⟩
  | moveStart => exact ⟨f.move_cursor_to_start, rfl, Nat.zero_le _, hq⟩
  | moveEnd => exact ⟨f.move_cursor_to_end, rfl, Nat.le_refl _, hq⟩
  | activate => exact ⟨f.activate, rfl, Nat.le_refl _, hq⟩
  | deactivate => exact ⟨f.deactivate, rfl, hcur, hq⟩
  | clearQuery =>
    exact ⟨f.clear, rfl, Nat.le_refl 0, fun x hx => by
      simp [FilterState.clear] at hx⟩

lemma runFOps_pres :
    ∀ (ops : List FOp) (f : FilterState),
      (∀ op ∈ ops, op.insertsAsciiOnly = true) → FInv f →
      ∃ f', runFOps ops f = some f' ∧ FInv f' := by
  intro ops
  induction ops with
  | nil => exact fun f _ h => ⟨f, rfl, h⟩
  | cons op rest ih =>
    intro f hops h
    obtain ⟨f1, hf1, hinv1⟩ := fop_pres op f (hops op (by simp)) h
    obtain ⟨f', hf', hinv'⟩ :=
      ih f1 (fun o ho => hops o (by simp [ho])) hinv1
    refine ⟨f', ?_, hinv'⟩
    show runFOps (op :: rest) f = some f'
    unfold runFOps
    rw [hf1]
    exact hf'

/-- C9 (amended): every sequence of filter-editing operations from the
initial filter state is defined (panic-free) and keeps
`0 ≤ cursorPosition ≤ len(query)` provided every inserted character is a
single-byte (ASCII) character.  Unrestricted, the claim fails: inserting
a multi-byte character advances the byte cursor by only 1, leaving it
inside the character, and the next insertion panics (see the
counterexample). -/
theorem c9_ascii_editing_safe (ops : List FOp)
    (hops : ∀ op ∈ ops, op.insertsAsciiOnly = true) :
    ∃ f, runFOps ops FilterState.new = some f ∧
      f.cursor_position ≤ byteLen f.query ∧
      byteLen f.query = f.query.length := by
  obtain ⟨f, hf, hcur, hq⟩ :=
    runFOps_pres ops FilterState.new hops
      ⟨Nat.le_refl 0, by simp [FilterState.new]⟩
  exact ⟨f, hf, hcur, byteLen_ascii f.query hq⟩

/-- Witness for C9: an ASCII editing session (activate, two inserts,
cursor moves, both deletes, clear) runs to completion with the cursor in
bounds. -/
theorem c9_ascii_editing_safe_witness :
    (∀ op ∈ [FOp.activate, FOp.addChar 'a', FOp.addChar 'b', FOp.moveLeft,
        FOp.deleteBefore, FOp.deleteAt, FOp.moveStart, FOp.moveEnd,
        FOp.clearQuery], op.insertsAsciiOnly = true) ∧
    ∃ f, runFOps [FOp.activate, FOp.addChar 'a', FOp.addChar 'b',
        FOp.moveLeft, FOp.deleteBefore, FOp.deleteAt, FOp.moveStart,
        FOp.moveEnd, FOp.clearQuery] FilterState.new = some f ∧
      f.cursor_position ≤ byteLen f.query ∧
      byteLen f.query = f.query.length :=
  ⟨by decide, c9_ascii_editing_safe _ (by decide)⟩

/-- Counterexample to C9 as stated: inserting the two-byte character `é`
advances the byte cursor by one only, so the following insertion falls
inside the character and `String::insert` panics (modelled as `none`). -/
theorem c9_counterexample :
    ((FilterState.new.add_char 'é').bind fun f => f.add_char 'a') =
      none := by
  decide

end Web3TxStream
